import Mathlib

/-!
Verification of the AlphaZeroChess backend against its specification.

The Python sources under `backend/` are shallowly embedded here:

* `chess_engine.py` / the `python-chess` board are abstracted by `GameOps`,
  a record of the engine queries the MCTS code performs (`get_legal_moves`,
  `make_move`, `is_game_over`, `board.turn`, `get_result`, `move_to_index`).
  `chess.WHITE = True` and `chess.BLACK = False`, so `turnWhite s = true`
  means White is the side to move in state `s`.
* `ChessEngine.get_move_probabilities` is embedded as
  `get_move_probabilities`: Python's insertion-ordered dict keyed by the
  distinct UCI strings of the legal moves becomes an association list in
  legal-move order.
* `mcts.py` is embedded by `MCTSNode` (the search tree, with engine copies
  as `state` fields), `MCTSNode.value`, `MCTSNode.ucb_score`,
  `MCTSNode.select_child`, `MCTSNode.expand`, `MCTSNode.update`, and
  `MCTS_search`.  Python floats are modelled as rationals; `math.sqrt` and
  the float `**` of the temperature branch are kept as explicit function
  parameters (`sqrtFn`, `powFn`) since exact real `sqrt`/`rpow` are not
  executable; theorems assume of them only properties of the real
  functions they stand for.  `np.random.choice` is the parameter `choose`.
  The FEN-keyed inference cache of `MCTS._evaluate_position` memoises a
  pure evaluator, so it is semantically transparent and the embedding
  calls the evaluator (`predict`) directly.  Python exceptions
  (`max()` on an empty dict, division by a zero visit total, sampling from
  an all-zero distribution) are modelled by `Except SErr`.
  The in-place backpropagation loop of `MCTS.search` (lines 152-155)
  becomes the unwinding of the recursion in `simulate`, which returns the
  updated subtree together with the value that was added to its root; the
  loop itself is also embedded literally as `backprop_path` over the
  recorded search path.
* `self_play.py` is embedded by `play_loop` / `play_game` (the move cap
  `move_count > 500` bounds the loop, the structural fuel `501` can never
  be exhausted before it), `evaluator.py` by `run_eval_loop` /
  `run_evaluation_stats` / `should_promote`, and the
  `/api/training/start` handler of `server.py` by `start_training` over
  the global `training_status` record.
-/

/-- The engine operations `mcts.py` and `self_play.py` perform on a
`ChessEngine` (which wraps a `python-chess` board).  `σ` is the board
state; `moveIdx` is `ChessEngine.move_to_index` on UCI strings. -/
structure GameOps (σ : Type) where
  legalMoves : σ → List String
  makeMove : σ → String → σ
  isGameOver : σ → Bool
  turnWhite : σ → Bool
  result : σ → String
  moveIdx : String → ℕ

/-- `ChessEngine.get_move_probabilities` (chess_engine.py lines 137-165).
For each legal move the policy entry at its index (0.0 when the index is
out of range); normalise when the total is positive, otherwise a uniform
distribution over the legal moves.  Entries of illegal moves never enter
the dict. -/
def get_move_probabilities (moveIdx : String → ℕ) (policy : List ℚ)
    (legal : List String) : List (String × ℚ) :=
  if legal.isEmpty then []
  else
    let move_probs := legal.map (fun mv => (mv, policy.getD (moveIdx mv) 0))
    let total := (move_probs.map Prod.snd).sum
    if total > 0 then move_probs.map (fun kv => (kv.1, kv.2 / total))
    else legal.map (fun mv => (mv, 1 / (legal.length : ℚ)))

/-- `MCTS._evaluate_position` (mcts.py lines 98-115) composed with the
neural network: `predict` returns the raw policy vector and the value;
the cache is transparent memoisation of this pure function. -/
def evaluate_position {σ : Type} (g : GameOps σ) (predict : σ → List ℚ × ℚ)
    (s : σ) : List (String × ℚ) × ℚ :=
  let pv := predict s
  (get_move_probabilities g.moveIdx pv.1 (g.legalMoves s), pv.2)

/-- A node of the search tree (`MCTSNode.__init__`, mcts.py lines 15-24):
the engine copy, the prior from the network, the visit count, the value
sum, the expansion flag and the children keyed by UCI move (a Python dict
in insertion order, hence an association list). -/
inductive MCTSNode (σ : Type) : Type where
  | mk (state : σ) (prior : ℚ) (visit_count : ℕ) (value_sum : ℚ)
       (is_expanded : Bool) (children : List (String × MCTSNode σ))

def MCTSNode.state {σ} : MCTSNode σ → σ | .mk s _ _ _ _ _ => s
def MCTSNode.prior {σ} : MCTSNode σ → ℚ | .mk _ p _ _ _ _ => p
def MCTSNode.visit_count {σ} : MCTSNode σ → ℕ | .mk _ _ v _ _ _ => v
def MCTSNode.value_sum {σ} : MCTSNode σ → ℚ | .mk _ _ _ w _ _ => w
def MCTSNode.is_expanded {σ} : MCTSNode σ → Bool | .mk _ _ _ _ e _ => e
def MCTSNode.children {σ} : MCTSNode σ → List (String × MCTSNode σ)
  | .mk _ _ _ _ _ c => c

@[simp] theorem MCTSNode.state_mk {σ} (s : σ) (p v w e c) :
    (MCTSNode.mk s p v w e c).state = s := rfl
@[simp] theorem MCTSNode.prior_mk {σ} (s : σ) (p v w e c) :
    (MCTSNode.mk s p v w e c).prior = p := rfl
@[simp] theorem MCTSNode.visit_count_mk {σ} (s : σ) (p v w e c) :
    (MCTSNode.mk s p v w e c).visit_count = v := rfl
@[simp] theorem MCTSNode.value_sum_mk {σ} (s : σ) (p v w e c) :
    (MCTSNode.mk s p v w e c).value_sum = w := rfl
@[simp] theorem MCTSNode.is_expanded_mk {σ} (s : σ) (p v w e c) :
    (MCTSNode.mk s p v w e c).is_expanded = e := rfl
@[simp] theorem MCTSNode.children_mk {σ} (s : σ) (p v w e c) :
    (MCTSNode.mk s p v w e c).children = c := rfl

/-- `MCTSNode.value` (mcts.py lines 26-30): average value, 0.0 while
unvisited. -/
def MCTSNode.value {σ} (t : MCTSNode σ) : ℚ :=
  if t.visit_count = 0 then 0 else t.value_sum / t.visit_count

/-- `MCTSNode.is_leaf` (mcts.py lines 32-34). -/
def MCTSNode.is_leaf {σ} (t : MCTSNode σ) : Bool := !t.is_expanded

/-- `MCTSNode.update` (mcts.py lines 74-77). -/
def MCTSNode.update {σ} (t : MCTSNode σ) (v : ℚ) : MCTSNode σ :=
  .mk t.state t.prior (t.visit_count + 1) (t.value_sum + v) t.is_expanded
    t.children

/-- `MCTSNode.ucb_score` (mcts.py lines 51-59): `Q(child) + c_puct *
prior(child) * sqrt(visits(parent)) / (1 + visits(child))`, with
`math.sqrt` as the parameter `sqrtFn`. -/
def MCTSNode.ucb_score {σ} (sqrtFn : ℕ → ℚ) (c_puct : ℚ)
    (parent child : MCTSNode σ) : ℚ :=
  child.value + c_puct * child.prior * sqrtFn parent.visit_count
    / (1 + child.visit_count)

/-- `MCTSNode.select_child` (mcts.py lines 36-49): fold over the children
dict keeping the strictly best UCB score; ties keep the earlier child,
`best_score` starts at `-inf` so the first child always replaces the
initial `none`. -/
def MCTSNode.select_child {σ} (sqrtFn : ℕ → ℚ) (c_puct : ℚ)
    (parent : MCTSNode σ) : Option (String × MCTSNode σ) :=
  parent.children.foldl
    (fun best mc =>
      match best with
      | none => some mc
      | some bc =>
          if MCTSNode.ucb_score sqrtFn c_puct parent mc.2 >
             MCTSNode.ucb_score sqrtFn c_puct parent bc.2
          then some mc else some bc)
    none

/-- `MCTSNode.expand` (mcts.py lines 61-72): add a fresh child for every
legal move not yet present, with prior `policy_probs.get(move, 0.0)`, and
set `is_expanded`. -/
def MCTSNode.expand {σ} (g : GameOps σ) (policy_probs : List (String × ℚ))
    (t : MCTSNode σ) : MCTSNode σ :=
  let newChildren := (g.legalMoves t.state).foldl
    (fun cs mv =>
      if (cs.map Prod.fst).contains mv then cs
      else cs ++ [(mv, MCTSNode.mk (g.makeMove t.state mv)
                    ((policy_probs.lookup mv).getD 0) 0 0 false [])])
    t.children
  MCTSNode.mk t.state t.prior t.visit_count t.value_sum true newChildren

/-- The terminal-leaf value of `MCTS.search` (mcts.py lines 143-150):
`get_result()` is `"1-0"` for a White win and `"0-1"` for a Black win;
the code returns `1.0` on `"1-0"` iff Black is to move and `1.0` on
`"0-1"` iff White is to move, `0.0` otherwise. -/
def terminal_value {σ} (g : GameOps σ) (s : σ) : ℚ :=
  let result := g.result s
  if result = "1-0" then (if g.turnWhite s = false then 1 else -1)
  else if result = "0-1" then (if g.turnWhite s = true then 1 else -1)
  else 0

/-- The side to move in `s` has won: `"1-0"` (White won) with White to
move, or `"0-1"` (Black won) with Black to move.  In chess this is
unreachable at a terminal position, since the checkmated player is the
one to move. -/
def to_move_won {σ} (g : GameOps σ) (s : σ) : Bool :=
  (g.result s == "1-0" && g.turnWhite s) ||
  (g.result s == "0-1" && !g.turnWhite s)

/-- The side to move in `s` has lost: `"1-0"` with Black to move, or
`"0-1"` with White to move (the checkmate cases of `get_result`). -/
def to_move_lost {σ} (g : GameOps σ) (s : σ) : Bool :=
  (g.result s == "1-0" && !g.turnWhite s) ||
  (g.result s == "0-1" && g.turnWhite s)

/-- The terminal leaf value as the specification words it: `+1` if the
leaf's side to move has won, `-1` if it has lost, `0` on a draw.  Stated
from the spec, to be compared with `terminal_value` from the code. -/
def spec_leaf_value {σ} (g : GameOps σ) (s : σ) : ℚ :=
  if to_move_won g s then 1 else if to_move_lost g s then -1 else 0

/-- The run-time failures `MCTS.search` can raise: selecting from a node
with an empty children dict (`best_child` stays `None`), `max()` over an
empty `visit_counts`, `count / total_visits` with a zero total, and
sampling from an all-zero visit distribution (`numpy` NaN probabilities
make `np.random.choice` raise). -/
inductive SErr where
  | selectNone
  | maxEmpty
  | zeroDivision
  | sampleZero
  deriving DecidableEq

/-- Replace the subtree at key `mv` (in-place child mutation of the
Python dict). -/
def replaceChild {σ} (cs : List (String × MCTSNode σ)) (mv : String)
    (c : MCTSNode σ) : List (String × MCTSNode σ) :=
  cs.map (fun p => if p.1 = mv then (mv, c) else p)

theorem foldl_best_mem {σ} (f : MCTSNode σ → ℚ) (l : List (String × MCTSNode σ))
    (acc : Option (String × MCTSNode σ)) (p : String × MCTSNode σ)
    (h : l.foldl
      (fun best mc =>
        match best with
        | none => some mc
        | some bc => if f mc.2 > f bc.2 then some mc else some bc) acc = some p) :
    p ∈ l ∨ acc = some p := by
  induction l generalizing acc with
  | nil => exact Or.inr h
  | cons hd tl ih =>
      simp only [List.foldl_cons] at h
      rcases ih _ h with h1 | h1
      · exact Or.inl (List.mem_cons_of_mem _ h1)
      · match acc with
        | none =>
            simp only at h1
            injection h1 with h2
            subst h2
            exact Or.inl (List.mem_cons_self _ _)
        | some bc =>
            simp only at h1
            by_cases hc : f hd.2 > f bc.2
            · rw [if_pos hc] at h1
              injection h1 with h2
              subst h2
              exact Or.inl (List.mem_cons_self _ _)
            · rw [if_neg hc] at h1
              exact Or.inr h1

theorem select_child_mem {σ} (sqrtFn : ℕ → ℚ) (c_puct : ℚ)
    (parent : MCTSNode σ) {mv : String} {c : MCTSNode σ}
    (h : MCTSNode.select_child sqrtFn c_puct parent = some (mv, c)) :
    (mv, c) ∈ parent.children := by
  unfold MCTSNode.select_child at h
  rcases foldl_best_mem (MCTSNode.ucb_score sqrtFn c_puct parent) _ _ _ h with h1 | h1
  · exact h1
  · exact absurd h1 (by simp)

theorem sizeOf_lt_of_mem_children {σ} {mv : String} {c t : MCTSNode σ}
    (h : (mv, c) ∈ t.children) : sizeOf c < sizeOf t := by
  rcases t with ⟨s, p, v, w, e, cs⟩
  simp only [MCTSNode.children] at h
  have h1 : sizeOf (mv, c) < sizeOf cs := List.sizeOf_lt_of_mem h
  simp only [MCTSNode.mk.sizeOf_spec]
  simp only [Prod.mk.sizeOf_spec] at h1
  omega

/-- One simulation of `MCTS.search` (mcts.py lines 126-155): descend with
`select_child` while the node is expanded and not terminal; at the
stopping node either evaluate the network and `expand`, or compute the
terminal value from the game result; then backpropagate, adding `v` at
the stopping node and `-v, v, -v, …` walking back up (the recursion
returns the value added at the root of the handled subtree, the caller
adds its negation one level up, exactly as the reversed-path loop of
lines 152-155 does). -/
def simulate {σ} (g : GameOps σ) (predict : σ → List ℚ × ℚ)
    (sqrtFn : ℕ → ℚ) (c_puct : ℚ) : MCTSNode σ → Except SErr (MCTSNode σ × ℚ)
  | t =>
    if t.is_leaf || g.isGameOver t.state then
      if !g.isGameOver t.state then
        -- expansion and evaluation (lines 136-141)
        let mv_val := evaluate_position g predict t.state
        .ok ((MCTSNode.expand g mv_val.1 t).update mv_val.2, mv_val.2)
      else
        -- terminal node: use the game result (lines 142-150)
        let v := terminal_value g t.state
        .ok (t.update v, v)
    else
      match h : MCTSNode.select_child sqrtFn c_puct t with
      | none => .error .selectNone
      | some (mv, c) => do
          let cv ← simulate g predict sqrtFn c_puct c
          .ok ((MCTSNode.mk t.state t.prior t.visit_count t.value_sum
                  t.is_expanded (replaceChild t.children mv cv.1)).update (-cv.2),
               -cv.2)
  termination_by t => sizeOf t
  decreasing_by
    exact sizeOf_lt_of_mem_children (select_child_mem sqrtFn c_puct _ h)

/-- The simulation loop `for sim in range(self.num_simulations)`
(mcts.py line 126): run `n` simulations from tree `t`, threading the
updated tree; an exception in any simulation aborts the search. -/
def runSims {σ} (g : GameOps σ) (predict : σ → List ℚ × ℚ)
    (sqrtFn : ℕ → ℚ) (c_puct : ℚ) : ℕ → MCTSNode σ → Except SErr (MCTSNode σ)
  | 0, t => .ok t
  | n + 1, t => do
      let r ← simulate g predict sqrtFn c_puct t
      runSims g predict sqrtFn c_puct n r.1

/-- `max(visit_counts, key=visit_counts.get)` on a non-empty dict:
the first key attaining the maximal count (Python's `max` keeps the
earlier element on ties). -/
def firstArgmax (hd : String × ℕ) (tl : List (String × ℕ)) : String :=
  (tl.foldl (fun best mc => if mc.2 > best.2 then mc else best) hd).1

/-- Move selection of `MCTS.search` (mcts.py lines 168-180): at
temperature 0 the most-visited move via `max` (which raises on an empty
dict); otherwise temperature-scaled counts (`**` modelled by `powFn`) are
normalised — a zero total produces NaN probabilities and
`np.random.choice` (modelled by `choose`) raises. -/
def select_move (powFn : ℚ → ℚ → ℚ) (choose : List String → List ℚ → String)
    (temperature : ℚ) (visit_counts : List (String × ℕ)) : Except SErr String :=
  if temperature = 0 then
    match visit_counts with
    | [] => .error .maxEmpty
    | hd :: tl => .ok (firstArgmax hd tl)
  else
    let moves := visit_counts.map Prod.fst
    let counts : List ℚ := visit_counts.map (fun mc => (mc.2 : ℚ))
    let counts := if temperature ≠ 1 then
        counts.map (fun c => powFn c (1 / temperature))
      else counts
    let total := counts.sum
    if total = 0 then .error .sampleZero
    else .ok (choose moves (counts.map (fun c => c / total)))

/-- `MCTS.search` (mcts.py lines 117-188): build the root from the
engine state, run `num_simulations` simulations, pick the move from the
children's visit counts according to the temperature, normalise the
visit distribution for training (raising on a zero total) and return
`(best_move, move_probabilities, root_value)`. -/
def MCTS_search {σ} (g : GameOps σ) (predict : σ → List ℚ × ℚ)
    (sqrtFn : ℕ → ℚ) (powFn : ℚ → ℚ → ℚ)
    (choose : List String → List ℚ → String) (c_puct : ℚ)
    (num_simulations : ℕ) (s : σ) (temperature : ℚ) :
    Except SErr (String × List (String × ℚ) × ℚ) := do
  let root₀ : MCTSNode σ := .mk s 0 0 0 false []
  let root ← runSims g predict sqrtFn c_puct num_simulations root₀
  let visit_counts := root.children.map (fun mc => (mc.1, mc.2.visit_count))
  let best_move ← select_move powFn choose temperature visit_counts
  let total_visits := (visit_counts.map Prod.snd).sum
  if total_visits = 0 then .error .zeroDivision
  else
    let move_probs := visit_counts.map
      (fun mc => (mc.1, (mc.2 : ℚ) / (total_visits : ℚ)))
    .ok (best_move, move_probs, root.value)

/-- The backpropagation loop of `MCTS.search` (mcts.py lines 152-155)
on the reversed search path: each node is updated with the running value,
which flips sign after every node. -/
def backprop_rev {σ} : List (MCTSNode σ) → ℚ → List (MCTSNode σ)
  | [], _ => []
  | n :: rest, value => n.update value :: backprop_rev rest (-value)

/-- `for node_in_path in reversed(search_path): node_in_path.update(value);
value = -value` — the path is given root-to-leaf as built by the
selection loop, the updates walk it leaf-to-root. -/
def backprop_path {σ} (search_path : List (MCTSNode σ)) (value : ℚ) :
    List (MCTSNode σ) :=
  (backprop_rev search_path.reverse value).reverse

theorem ok_bind_eq {ε α β : Type} (a : α) (f : α → Except ε β) :
    (Except.ok a >>= f : Except ε β) = f a := rfl

theorem error_bind_eq {ε α β : Type} (e : ε) (f : α → Except ε β) :
    (Except.error e >>= f : Except ε β) = Except.error e := rfl

theorem simulate_terminal {σ} (g : GameOps σ) (predict : σ → List ℚ × ℚ)
    (sqrtFn : ℕ → ℚ) (c_puct : ℚ) (t : MCTSNode σ)
    (h : g.isGameOver t.state = true) :
    simulate g predict sqrtFn c_puct t =
      .ok (t.update (terminal_value g t.state), terminal_value g t.state) := by
  unfold simulate
  simp [h]

theorem simulate_expand {σ} (g : GameOps σ) (predict : σ → List ℚ × ℚ)
    (sqrtFn : ℕ → ℚ) (c_puct : ℚ) (t : MCTSNode σ)
    (hleaf : t.is_expanded = false) (h : g.isGameOver t.state = false) :
    simulate g predict sqrtFn c_puct t =
      .ok ((MCTSNode.expand g (evaluate_position g predict t.state).1 t).update
             (evaluate_position g predict t.state).2,
           (evaluate_position g predict t.state).2) := by
  unfold simulate
  simp [MCTSNode.is_leaf, hleaf, h]

theorem runSims_terminal {σ} (g : GameOps σ) (predict : σ → List ℚ × ℚ)
    (sqrtFn : ℕ → ℚ) (c_puct : ℚ) (n : ℕ) (t : MCTSNode σ)
    (h : g.isGameOver t.state = true) :
    runSims g predict sqrtFn c_puct n t =
      .ok (MCTSNode.mk t.state t.prior (t.visit_count + n)
            (t.value_sum + n * terminal_value g t.state) t.is_expanded
            t.children) := by
  induction n generalizing t with
  | zero =>
      rcases t with ⟨s, p, v, w, e, c⟩
      simp [runSims]
  | succ n ih =>
      rw [runSims, simulate_terminal g predict sqrtFn c_puct t h]
      have h2 : g.isGameOver (t.update (terminal_value g t.state)).state = true := by
        simpa [MCTSNode.update] using h
      rw [ok_bind_eq]
      rw [ih _ h2]
      have h3 : terminal_value g (t.update (terminal_value g t.state)).state =
          terminal_value g t.state := by
        simp [MCTSNode.update]
      simp [MCTSNode.update, h3]
      constructor
      · omega
      · ring

theorem expand_children_visit_zero {σ} (g : GameOps σ)
    (policy_probs : List (String × ℚ)) (t : MCTSNode σ)
    (h0 : t.children = []) :
    ∀ mc ∈ (MCTSNode.expand g policy_probs t).children, mc.2.visit_count = 0 := by
  unfold MCTSNode.expand
  rw [h0]
  simp only [MCTSNode.children_mk]
  generalize g.legalMoves t.state = moves
  have key : ∀ (l : List String) (cs : List (String × MCTSNode σ)),
      (∀ mc ∈ cs, mc.2.visit_count = 0) →
      ∀ mc ∈ l.foldl
        (fun cs mv =>
          if (cs.map Prod.fst).contains mv then cs
          else cs ++ [(mv, MCTSNode.mk (g.makeMove t.state mv)
                        ((policy_probs.lookup mv).getD 0) 0 0 false [])]) cs,
        mc.2.visit_count = 0 := by
    intro l
    induction l with
    | nil => intro cs hcs mc hmc; exact hcs mc hmc
    | cons hd tl ih =>
        intro cs hcs mc hmc
        simp only [List.foldl_cons] at hmc
        apply ih _ _ mc hmc
        intro mc2 hmc2
        by_cases hc : ((cs.map Prod.fst).contains hd : Bool)
        · rw [if_pos hc] at hmc2
          exact hcs mc2 hmc2
        · rw [if_neg hc] at hmc2
          rcases List.mem_append.mp hmc2 with h1 | h1
          · exact hcs mc2 h1
          · simp only [List.mem_singleton] at h1
            subst h1
            rfl
  intro mc hmc
  exact key moves [] (by simp) mc hmc

theorem expand_children_ne_nil {σ} (g : GameOps σ)
    (policy_probs : List (String × ℚ)) (t : MCTSNode σ)
    (h0 : t.children = []) (hlegal : g.legalMoves t.state ≠ []) :
    (MCTSNode.expand g policy_probs t).children ≠ [] := by
  unfold MCTSNode.expand
  rw [h0]
  simp only [MCTSNode.children_mk]
  have grow : ∀ (l : List String) (cs : List (String × MCTSNode σ)),
      cs.length ≤ (l.foldl
        (fun cs mv =>
          if (cs.map Prod.fst).contains mv then cs
          else cs ++ [(mv, MCTSNode.mk (g.makeMove t.state mv)
                        ((policy_probs.lookup mv).getD 0) 0 0 false [])]) cs).length := by
    intro l
    induction l with
    | nil => intro cs; simp
    | cons hd tl ih =>
        intro cs
        simp only [List.foldl_cons]
        refine le_trans ?_ (ih _)
        by_cases hc : ((cs.map Prod.fst).contains hd : Bool)
        · rw [if_pos hc]
        · rw [if_neg hc]; simp
  rcases List.exists_cons_of_ne_nil hlegal with ⟨m, rest, hrest⟩
  rw [hrest]
  simp only [List.foldl_cons, List.map_nil, List.contains_nil, Bool.false_eq_true,
    List.nil_append]
  intro hcon
  simp only [if_false] at hcon
  have h1 := grow rest
    [(m, MCTSNode.mk (g.makeMove t.state m) ((policy_probs.lookup m).getD 0) 0 0 false [])]
  rw [hcon] at h1
  simp at h1

/-- One recorded entry of `game_history` in `SelfPlayGame.play_game`
(self_play.py lines 38-44): the position (kept as the engine state, whose
encoding `encode_board` the network consumes), the MCTS policy, the side
to move (`engine.board.turn`) and the ply number; the temperature passed
to `search` at this ply is recorded as instrumentation. -/
structure HistEntry (σ : Type) where
  position : σ
  policy : List (String × ℚ)
  player : Bool
  move_number : ℕ
  temperature : ℚ

/-- One entry of the returned `training_data` (self_play.py lines 74-80;
the stored board encoding and FEN are represented by the position). -/
structure TrainEntry (σ : Type) where
  position : σ
  policy : List (String × ℚ)
  value : ℚ
  move_number : ℕ

/-- The game loop of `SelfPlayGame.play_game` (self_play.py lines 28-52):
while the game is not over, search with temperature 1 before
`temperature_threshold` plies and 0 afterwards, record the position,
policy and side to move, play the move, and break once `move_count`
exceeds 500.  `searchFn` abstracts `self.mcts.search` (position and
temperature to move, policy and value).  The loop is structurally
recursive on a fuel argument; since the move cap stops the loop after at
most 501 iterations, the fuel `501` used by `play_game` is never
exhausted before the cap. -/
def play_loop {σ} (g : GameOps σ)
    (searchFn : σ → ℚ → String × List (String × ℚ) × ℚ)
    (temperature_threshold : ℕ) :
    ℕ → σ → ℕ → List (HistEntry σ) × σ
  | fuel, s, move_count =>
    if g.isGameOver s then ([], s)
    else
      let temperature : ℚ := if move_count < temperature_threshold then 1 else 0
      let mpv := searchFn s temperature
      let entry : HistEntry σ :=
        ⟨s, mpv.2.1, g.turnWhite s, move_count, temperature⟩
      let s' := g.makeMove s mpv.1
      if move_count + 1 > 500 then ([entry], s')
      else
        match fuel with
        | 0 => ([entry], s')
        | fuel' + 1 =>
            let rest := play_loop g searchFn temperature_threshold fuel' s' (move_count + 1)
            (entry :: rest.1, rest.2)

/-- The outcome from White's perspective (self_play.py lines 57-63):
`+1` for `"1-0"`, `-1` for `"0-1"`, `0` otherwise (draws, and the `"*"`
returned by `get_result` when the move cap forced the game to stop). -/
def outcome_of_result (result : String) : ℚ :=
  if result = "1-0" then 1 else if result = "0-1" then -1 else 0

/-- `SelfPlayGame.play_game` (self_play.py lines 18-84): run the game
loop from `s0`, compute the outcome from the final position, and assign
to every recorded example the outcome from the perspective of its side to
move (`outcome` for White, `-outcome` for Black).  Returns the training
data, the result string and the move count. -/
def play_game {σ} (g : GameOps σ)
    (searchFn : σ → ℚ → String × List (String × ℚ) × ℚ)
    (temperature_threshold : ℕ) (s0 : σ) :
    List (TrainEntry σ) × String × ℕ :=
  let run := play_loop g searchFn temperature_threshold 501 s0 0
  let game_history := run.1
  let result := g.result run.2
  let outcome := outcome_of_result result
  let training_data := game_history.map (fun e =>
    ({ position := e.position, policy := e.policy,
       value := if e.player then outcome else -outcome,
       move_number := e.move_number } : TrainEntry σ))
  (training_data, result, game_history.length)

/-- The running counters of `EvaluationMatch.run_evaluation`
(evaluator.py lines 78-118).  Model1 is the challenger, model2 the
champion. -/
structure EvalStats where
  model1_wins : ℕ
  model2_wins : ℕ
  draws : ℕ
  games_played : ℕ
  model1_as_white_wins : ℕ
  model1_as_black_wins : ℕ
  model2_as_white_wins : ℕ
  model2_as_black_wins : ℕ
  deriving DecidableEq

def initEvalStats : EvalStats := ⟨0, 0, 0, 0, 0, 0, 0, 0⟩

/-- One iteration of the result-tallying loop (evaluator.py lines
90-118): game `i` has model1 playing White iff `i` is even;
`games_played` counts every game, a `"1-0"` or `"0-1"` result credits the
winning model, everything else is a draw. -/
def update_stats (st : EvalStats) (i : ℕ) (result : String) : EvalStats :=
  let model1_plays_white := i % 2 = 0
  let st := { st with games_played := st.games_played + 1 }
  if result = "1-0" then
    if model1_plays_white then
      { st with model1_wins := st.model1_wins + 1,
                model1_as_white_wins := st.model1_as_white_wins + 1 }
    else
      { st with model2_wins := st.model2_wins + 1,
                model2_as_white_wins := st.model2_as_white_wins + 1 }
  else if result = "0-1" then
    if model1_plays_white then
      { st with model2_wins := st.model2_wins + 1,
                model2_as_black_wins := st.model2_as_black_wins + 1 }
    else
      { st with model1_wins := st.model1_wins + 1,
                model1_as_black_wins := st.model1_as_black_wins + 1 }
  else
    { st with draws := st.draws + 1 }

/-- The `for i in range(num_games)` loop of `run_evaluation` over the
per-game results. -/
def run_eval_loop (i : ℕ) : List String → EvalStats → EvalStats
  | [], st => st
  | r :: rest, st => run_eval_loop (i + 1) rest (update_stats st i r)

/-- `EvaluationMatch.run_evaluation` tallying (evaluator.py lines
77-130) applied to the list of game results. -/
def run_evaluation_stats (results : List String) : EvalStats :=
  run_eval_loop 0 results initEvalStats

/-- `results['model1_win_rate']` (evaluator.py lines 123-128): wins over
games played, `0.0` when no game was played. -/
def model1_win_rate (st : EvalStats) : ℚ :=
  if st.games_played > 0 then (st.model1_wins : ℚ) / (st.games_played : ℚ) else 0

/-- The promotion decision of `ModelEvaluator.evaluate_models`
(evaluator.py line 184): `challenger_win_rate >= win_threshold`
(model1 is the challenger). -/
def should_promote (challenger_win_rate win_threshold : ℚ) : Bool :=
  challenger_win_rate ≥ win_threshold

/-- The default `win_threshold=0.55` of `ModelEvaluator.__init__`
(evaluator.py line 141). -/
def default_win_threshold : ℚ := 55 / 100

/-- The global `training_status` record of server.py (its keys after a
start: `active`, `progress`, `message`, `session_id`, `start_time`;
timestamps are abstract naturals). -/
structure TrainingStatus where
  active : Bool
  progress : ℕ
  message : String
  session_id : Option String
  start_time : Option ℕ
  deriving DecidableEq

/-- `raise HTTPException(status_code=400, detail=...)`. -/
structure HTTPErrorResp where
  status_code : ℕ
  detail : String
  deriving DecidableEq

/-- The success payload of `POST /api/training/start`. -/
structure StartedResp where
  success : Bool
  message : String
  session_id : String
  deriving DecidableEq

/-- `start_training` (server.py lines 319-344): if a run is active, raise
`HTTPException(400, "Training already in progress")` before touching
`training_status`; otherwise install the fresh status record and return
the success payload.  The returned pair is (global status after the
call, HTTP outcome). -/
def start_training (status : TrainingStatus) (new_session : String)
    (now : ℕ) : TrainingStatus × Except HTTPErrorResp StartedResp :=
  if status.active then
    (status, .error ⟨400, "Training already in progress"⟩)
  else
    ({ active := true, progress := 0, message := "Starting training...",
       session_id := some new_session, start_time := some now },
     .ok ⟨true, "Training started", new_session⟩)

/-- A tiny concrete game used to instantiate the theorems: state `0` is
the only non-terminal position (White to move, legal moves `a`, `b`);
`a` leads to state `1`, a Black-to-move terminal position won by White
(`"1-0"`, the checkmate shape of `get_result`), `b` to the drawn terminal
state `2`. -/
def toyOps : GameOps ℕ where
  legalMoves := fun s => if s = 0 then ["a", "b"] else []
  makeMove := fun s mv => if s = 0 then (if mv = "a" then 1 else 2) else s
  isGameOver := fun s => s != 0
  turnWhite := fun s => s == 0
  result := fun s => if s = 1 then "1-0" else if s = 2 then "1/2-1/2" else "*"
  moveIdx := fun mv => if mv = "a" then 0 else 1

def toyPredict : ℕ → List ℚ × ℚ := fun _ => ([1/2, 1/2], 1/4)

/-- Extensionally equal to `toyPredict` but a distinct function, for the
determinism theorem. -/
def toyPredictB : ℕ → List ℚ × ℚ := fun _ => ([1/2, 1/2], 1/4)

/-- Stands in for `math.sqrt`; on the concrete visit counts used below it
agrees with the real square root where the theorems need it
(`toySqrt 0 = 0`, positive on positives). -/
def toySqrt : ℕ → ℚ := fun n => (n : ℚ)

def toyPow : ℚ → ℚ → ℚ := fun b _ => b

def toyChoose : List String → List ℚ → String := fun mvs _ => mvs.headD ""

def toyChooseB : List String → List ℚ → String := fun mvs _ => mvs.getLastD ""

/-- A stand-in for `self.mcts.search` in the self-play loop. -/
def toySearch : ℕ → ℚ → String × List (String × ℚ) × ℚ :=
  fun _ _ => ("a", [("a", 1)], 0)

/-- C7: starting a training pipeline run while one is already active
fails with the AlreadyRunning conflict signal
(`HTTPException(400, "Training already in progress")`) and the active
run's status record (active flag, progress, message, session id, start
time) is left unchanged by the failed attempt. -/
theorem start_training_conflict_preserves_status (status : TrainingStatus)
    (new_session : String) (now : ℕ) (h : status.active = true) :
    start_training status new_session now =
      (status, .error ⟨400, "Training already in progress"⟩) := by
  simp [start_training, h]

theorem start_training_conflict_witness :
    (⟨true, 40, "Self-play games...", some "s1", some 17⟩ : TrainingStatus).active
        = true ∧
    start_training ⟨true, 40, "Self-play games...", some "s1", some 17⟩ "s2" 99 =
      (⟨true, 40, "Self-play games...", some "s1", some 17⟩,
       .error ⟨400, "Training already in progress"⟩) :=
  ⟨rfl, start_training_conflict_preserves_status _ _ _ rfl⟩

theorem update_stats_counters (st : EvalStats) (i : ℕ) (r : String) :
    (update_stats st i r).games_played = st.games_played + 1 ∧
    (update_stats st i r).model1_wins + (update_stats st i r).model2_wins +
        (update_stats st i r).draws
      = st.model1_wins + st.model2_wins + st.draws + 1 := by
  simp only [update_stats]
  split_ifs <;> simp <;> omega

theorem run_eval_loop_counters (l : List String) :
    ∀ (i : ℕ) (st : EvalStats),
    (run_eval_loop i l st).games_played = st.games_played + l.length ∧
    (run_eval_loop i l st).model1_wins + (run_eval_loop i l st).model2_wins +
        (run_eval_loop i l st).draws
      = st.model1_wins + st.model2_wins + st.draws + l.length := by
  induction l with
  | nil => intro i st; simp [run_eval_loop]
  | cons r rest ih =>
      intro i st
      rw [run_eval_loop]
      rcases ih (i + 1) (update_stats st i r) with ⟨h1, h2⟩
      rcases update_stats_counters st i r with ⟨h3, h4⟩
      constructor
      · rw [h1, h3]; simp only [List.length_cons]; omega
      · rw [h2, h4]; simp only [List.length_cons]; omega

/-- C6: for every completed evaluation match the challenger's (model1's)
win rate is its wins divided by the number of games played — draws (and
aborted games) count in the denominator only — and the challenger is
promoted iff `winRate >= threshold`, the boundary `winRate == threshold`
promoting; the default threshold is 0.55. -/
theorem evaluation_win_rate_and_promotion (results : List String)
    (h : results ≠ []) :
    (run_evaluation_stats results).games_played = results.length ∧
    (run_evaluation_stats results).model1_wins +
        (run_evaluation_stats results).model2_wins +
        (run_evaluation_stats results).draws
      = (run_evaluation_stats results).games_played ∧
    model1_win_rate (run_evaluation_stats results) =
      ((run_evaluation_stats results).model1_wins : ℚ) /
        ((run_evaluation_stats results).games_played : ℚ) ∧
    (∀ rate threshold : ℚ,
        should_promote rate threshold = true ↔ rate ≥ threshold) ∧
    (∀ threshold : ℚ, should_promote threshold threshold = true) ∧
    default_win_threshold = 55 / 100 := by
  rcases run_eval_loop_counters results 0 initEvalStats with ⟨h1, h2⟩
  have hg : (run_evaluation_stats results).games_played = results.length := by
    simpa [run_evaluation_stats, initEvalStats] using h1
  have hpos : 0 < (run_evaluation_stats results).games_played := by
    rw [hg]
    exact List.length_pos.mpr h
  refine ⟨hg, ?_, ?_, ?_, ?_, rfl⟩
  · rw [hg]
    simpa [run_evaluation_stats, initEvalStats] using h2
  · rw [model1_win_rate, if_pos hpos]
  · intro rate threshold
    simp [should_promote]
  · intro threshold
    simp [should_promote]

theorem evaluation_win_rate_and_promotion_witness :
    (["1-0", "0-1", "*"] : List String) ≠ [] ∧
    ((run_evaluation_stats ["1-0", "0-1", "*"]).games_played = 3 ∧
     model1_win_rate (run_evaluation_stats ["1-0", "0-1", "*"]) =
       ((run_evaluation_stats ["1-0", "0-1", "*"]).model1_wins : ℚ) / 3) := by
  refine ⟨by simp, ?_, ?_⟩
  · rfl
  · have h := (evaluation_win_rate_and_promotion ["1-0", "0-1", "*"] (by simp)).2.2.1
    simpa using h

theorem backprop_rev_length {σ} (l : List (MCTSNode σ)) :
    ∀ v : ℚ, (backprop_rev l v).length = l.length := by
  induction l with
  | nil => intro v; rfl
  | cons n rest ih =>
      intro v
      simp [backprop_rev, ih]

theorem backprop_rev_get {σ} (l : List (MCTSNode σ)) :
    ∀ (v : ℚ) (d : ℕ) (hd : d < l.length),
    (backprop_rev l v).get? d =
      some ((l.get ⟨d, hd⟩).update ((-1) ^ d * v)) := by
  induction l with
  | nil => intro v d hd; exact absurd hd (by simp)
  | cons n rest ih =>
      intro v d hd
      match d with
      | 0 =>
          simp [backprop_rev]
      | d + 1 =>
          have hd2 : d < rest.length := by
            simpa using hd
          have key := ih (-v) d hd2
          have harith : (-1 : ℚ) ^ d * -v = (-1) ^ (d + 1) * v := by ring
          rw [harith] at key
          simpa [backprop_rev] using key

/-- C3: the backpropagation pass of `MCTS.search` with leaf value `v`
over the recorded search path increments the visit count of every node
on the path by exactly 1, and adds `(-1)^d * v` to the value sum of the
node `d` steps above the leaf (the leaf being the last entry of the
root-to-leaf `search_path`). -/
theorem backprop_alternating_signs {σ} (search_path : List (MCTSNode σ))
    (v : ℚ) (d : ℕ) (hd : d < search_path.length) :
    (backprop_path search_path v).length = search_path.length ∧
    (backprop_path search_path v).reverse.get? d =
      some ((search_path.reverse.get ⟨d, by simpa using hd⟩).update
        ((-1) ^ d * v)) := by
  constructor
  · simp [backprop_path, backprop_rev_length]
  · have h1 : (backprop_path search_path v).reverse =
        backprop_rev search_path.reverse v := by
      simp [backprop_path]
    rw [h1]
    exact backprop_rev_get search_path.reverse v d (by simpa using hd)

theorem backprop_alternating_signs_witness :
    1 < ([MCTSNode.mk 0 0 5 1 true [], MCTSNode.mk 1 0 3 0 false []] :
          List (MCTSNode ℕ)).length ∧
    (backprop_path [MCTSNode.mk 0 0 5 1 true [], MCTSNode.mk 1 0 3 0 false []]
        (1/2 : ℚ)).reverse.get? 1 =
      some ((([MCTSNode.mk 0 0 5 1 true [],
               MCTSNode.mk 1 0 3 0 false []] :
          List (MCTSNode ℕ)).reverse.get ⟨1, by simp⟩).update
        ((-1) ^ 1 * (1/2 : ℚ))) :=
  ⟨by simp,
   (backprop_alternating_signs
     [MCTSNode.mk 0 0 5 1 true [], MCTSNode.mk 1 0 3 0 false []]
     (1/2) 1 (by simp)).2⟩

/-- C4: for a position with at least one legal move, the prior
distribution returned by `get_move_probabilities` assigns probabilities
to exactly the legal moves (illegal entries dropped): each legal move
receives its policy entry divided by the total policy mass over the
legal moves when that total is positive, and the uniform probability
`1 / (number of legal moves)` when that total is `<= 0`. -/
theorem move_probabilities_renormalise (moveIdx : String → ℕ)
    (policy : List ℚ) (legal : List String) (h : legal ≠ []) :
    (get_move_probabilities moveIdx policy legal).map Prod.fst = legal ∧
    ∀ (k : ℕ) (hk : k < legal.length),
      (get_move_probabilities moveIdx policy legal).get? k =
        some (legal.get ⟨k, hk⟩,
          if (legal.map (fun mv => policy.getD (moveIdx mv) 0)).sum > 0 then
            policy.getD (moveIdx (legal.get ⟨k, hk⟩)) 0 /
              (legal.map (fun mv => policy.getD (moveIdx mv) 0)).sum
          else 1 / (legal.length : ℚ)) := by
  have hne : legal.isEmpty = false := by
    simpa [List.isEmpty_iff] using h
  have htotal :
      ((legal.map (fun mv => (mv, policy.getD (moveIdx mv) 0))).map Prod.snd).sum
        = (legal.map (fun mv => policy.getD (moveIdx mv) 0)).sum := by
    rw [List.map_map]
    rfl
  unfold get_move_probabilities
  rw [hne]
  simp only [Bool.false_eq_true, if_false, htotal]
  by_cases hpos : (legal.map (fun mv => policy.getD (moveIdx mv) 0)).sum > 0
  · rw [if_pos hpos]
    constructor
    · rw [List.map_map, List.map_map]
      have : (Prod.fst ∘ fun kv : String × ℚ => (kv.1, kv.2 /
          (legal.map (fun mv => policy.getD (moveIdx mv) 0)).sum)) ∘
          (fun mv => (mv, policy.getD (moveIdx mv) 0)) = id := rfl
      rw [this, List.map_id]
    · intro k hk
      rw [if_pos hpos]
      rw [List.get?_map, List.get?_map]
      rw [List.get?_eq_get hk]
      rfl
  · rw [if_neg hpos]
    constructor
    · rw [List.map_map]
      have : (Prod.fst ∘ fun mv : String => (mv, 1 / (legal.length : ℚ))) = id := rfl
      rw [this, List.map_id]
    · intro k hk
      rw [if_neg hpos]
      rw [List.get?_map]
      rw [List.get?_eq_get hk]
      rfl

theorem move_probabilities_renormalise_witness :
    (["a", "b"] : List String) ≠ [] ∧
    (get_move_probabilities toyOps.moveIdx [3, 1] ["a", "b"]).map Prod.fst
        = ["a", "b"] ∧
    (get_move_probabilities toyOps.moveIdx [3, 1] ["a", "b"]).get? 0 =
      some ("a", (3 : ℚ) / 4) := by
  refine ⟨by simp, (move_probabilities_renormalise toyOps.moveIdx [3, 1]
    ["a", "b"] (by simp)).1, ?_⟩
  have h := (move_probabilities_renormalise toyOps.moveIdx [3, 1]
    ["a", "b"] (by simp)).2 0 (by simp)
  rw [h]
  have hb : ¬("b" = "a") := by decide
  norm_num [toyOps, hb]

/-- C1 (amended): when the selected leaf position of a simulation is
terminal, backpropagation starts with `terminal_value`, which is `+1`
when the leaf's side to move has LOST, `-1` when it has won and `0` on a
draw (the opposite perspective of the one the specification states), and
the evaluator is not called for that leaf (the result does not depend on
`predict`). -/
theorem terminal_leaf_value_code {σ} (g : GameOps σ)
    (predict predictB : σ → List ℚ × ℚ) (sqrtFn : ℕ → ℚ) (c_puct : ℚ)
    (t : MCTSNode σ) (h : g.isGameOver t.state = true) :
    simulate g predict sqrtFn c_puct t =
      .ok (t.update (terminal_value g t.state), terminal_value g t.state) ∧
    simulate g predict sqrtFn c_puct t = simulate g predictB sqrtFn c_puct t ∧
    terminal_value g t.state =
      (if to_move_lost g t.state then 1
       else if to_move_won g t.state then -1 else 0) := by
  refine ⟨simulate_terminal g predict sqrtFn c_puct t h, ?_, ?_⟩
  · rw [simulate_terminal g predict sqrtFn c_puct t h,
        simulate_terminal g predictB sqrtFn c_puct t h]
  · unfold terminal_value to_move_lost to_move_won
    by_cases h1 : g.result t.state = "1-0" <;>
      by_cases h2 : g.result t.state = "0-1" <;>
        cases hw : g.turnWhite t.state <;>
          simp [h1, h2, hw]

theorem terminal_leaf_value_code_witness :
    toyOps.isGameOver (MCTSNode.mk 2 0 0 0 false [] : MCTSNode ℕ).state = true ∧
    (simulate toyOps toyPredict toySqrt 1 (MCTSNode.mk 2 0 0 0 false []) =
      .ok ((MCTSNode.mk 2 0 0 0 false []).update
             (terminal_value toyOps (MCTSNode.mk 2 0 0 0 false [] :
               MCTSNode ℕ).state),
           terminal_value toyOps (MCTSNode.mk 2 0 0 0 false [] :
             MCTSNode ℕ).state) ∧
     simulate toyOps toyPredict toySqrt 1 (MCTSNode.mk 2 0 0 0 false []) =
       simulate toyOps toyPredictB toySqrt 1 (MCTSNode.mk 2 0 0 0 false []) ∧
     terminal_value toyOps (MCTSNode.mk 2 0 0 0 false [] : MCTSNode ℕ).state =
       (if to_move_lost toyOps (MCTSNode.mk 2 0 0 0 false [] :
            MCTSNode ℕ).state then 1
        else if to_move_won toyOps (MCTSNode.mk 2 0 0 0 false [] :
            MCTSNode ℕ).state then -1 else 0)) :=
  ⟨rfl, terminal_leaf_value_code toyOps toyPredict toyPredictB toySqrt 1
    (MCTSNode.mk 2 0 0 0 false []) rfl⟩

/-- C1 counterexample: state `1` of the toy game is terminal with result
`"1-0"` and Black to move — Black, the side to move, has lost — yet the
simulation backpropagates `+1` from that leaf, where the specification's
leaf value relative to the side to move is `-1`. -/
theorem terminal_leaf_value_spec_mismatch :
    toyOps.isGameOver 1 = true ∧
    to_move_lost toyOps 1 = true ∧
    simulate toyOps toyPredict toySqrt 1 (MCTSNode.mk 1 0 0 0 false []) =
      .ok (MCTSNode.mk 1 0 1 1 false [], 1) ∧
    spec_leaf_value toyOps 1 = -1 := by
  refine ⟨rfl, rfl, ?_, rfl⟩
  rw [simulate_terminal toyOps toyPredict toySqrt 1
    (MCTSNode.mk 1 0 0 0 false []) rfl]
  norm_num [MCTSNode.update, terminal_value, toyOps]

theorem foldl_best_maximal {σ} (f : MCTSNode σ → ℚ) (l : List (String × MCTSNode σ)) :
    ∀ b : String × MCTSNode σ,
    ∃ p, l.foldl
        (fun best mc =>
          match best with
          | none => some mc
          | some bc => if f mc.2 > f bc.2 then some mc else some bc) (some b)
      = some p ∧ f b.2 ≤ f p.2 ∧ ∀ q ∈ l, f q.2 ≤ f p.2 := by
  induction l with
  | nil =>
      intro b
      exact ⟨b, rfl, le_refl _, by simp⟩
  | cons hd tl ih =>
      intro b
      simp only [List.foldl_cons]
      by_cases hc : f hd.2 > f b.2
      · rw [show (if f hd.2 > f b.2 then some hd else some b) = some hd from if_pos hc]
        rcases ih hd with ⟨p, hp1, hp2, hp3⟩
        refine ⟨p, hp1, le_of_lt (lt_of_lt_of_le hc hp2), ?_⟩
        intro q hq
        rcases List.mem_cons.mp hq with h1 | h1
        · subst h1; exact hp2
        · exact hp3 q h1
      · rw [show (if f hd.2 > f b.2 then some hd else some b) = some b from if_neg hc]
        rcases ih b with ⟨p, hp1, hp2, hp3⟩
        refine ⟨p, hp1, hp2, ?_⟩
        intro q hq
        rcases List.mem_cons.mp hq with h1 | h1
        · subst h1; exact le_trans (not_lt.mp hc) hp2
        · exact hp3 q h1

/-- C5 (amended): `select_child` returns a child maximising
`value(child) + c_puct * prior(child) * sqrt(visits(node)) /
(1 + visits(child))` over the children; and for a node whose two children
have equal value sums and equal visit counts, with `c_puct > 0` and a
POSITIVE `sqrt(visits(node))` (in particular whenever the node has been
visited at least once, as is the case for every expanded node the search
descends through), the child with the strictly higher prior is selected.
Without the positivity amendment the exploration term vanishes
(`sqrt 0 = 0`) and the tie is broken by dict order instead of the
priors. -/
theorem select_child_argmax_and_prior {σ} (sqrtFn : ℕ → ℚ) (c_puct : ℚ)
    (parent : MCTSNode σ) (hlen : 2 ≤ parent.children.length) :
    (∃ mv c, MCTSNode.select_child sqrtFn c_puct parent = some (mv, c) ∧
       (mv, c) ∈ parent.children ∧
       ∀ q ∈ parent.children,
         MCTSNode.ucb_score sqrtFn c_puct parent q.2 ≤
           MCTSNode.ucb_score sqrtFn c_puct parent c) ∧
    (∀ m1 c1 m2 c2, parent.children = [(m1, c1), (m2, c2)] →
       c1.value_sum = c2.value_sum → c1.visit_count = c2.visit_count →
       0 < c_puct → 0 < sqrtFn parent.visit_count → c1.prior < c2.prior →
       MCTSNode.select_child sqrtFn c_puct parent = some (m2, c2)) := by
  constructor
  · have hne : parent.children ≠ [] := by
      intro hcon
      rw [hcon] at hlen
      simp at hlen
    rcases List.exists_cons_of_ne_nil hne with ⟨hd, tl, hcons⟩
    unfold MCTSNode.select_child
    rw [hcons]
    simp only [List.foldl_cons]
    rcases foldl_best_maximal (MCTSNode.ucb_score sqrtFn c_puct parent) tl hd
      with ⟨p, hp1, hp2, hp3⟩
    refine ⟨p.1, p.2, by simpa using hp1, ?_, ?_⟩
    · rcases foldl_best_mem (MCTSNode.ucb_score sqrtFn c_puct parent) tl
        (some hd) p (by simpa using hp1) with h1 | h1
      · exact List.mem_cons_of_mem _ h1
      · injection h1 with h2
        subst h2
        exact List.mem_cons_self _ _
    · intro q hq
      rcases List.mem_cons.mp hq with h1 | h1
      · subst h1; exact hp2
      · exact hp3 q h1
  · intro m1 c1 m2 c2 hcons hvs hvc hcp hsq hpr
    have hscore : MCTSNode.ucb_score sqrtFn c_puct parent c1 <
        MCTSNode.ucb_score sqrtFn c_puct parent c2 := by
      unfold MCTSNode.ucb_score MCTSNode.value
      rw [hvs, hvc]
      have hd : (0 : ℚ) < 1 + (c2.visit_count : ℚ) := by positivity
      have hnum : c_puct * c1.prior * sqrtFn parent.visit_count <
          c_puct * c2.prior * sqrtFn parent.visit_count := by
        have h1 : c_puct * c1.prior < c_puct * c2.prior :=
          (mul_lt_mul_left hcp).mpr hpr
        exact (mul_lt_mul_right hsq).mpr h1
      exact add_lt_add_left ((div_lt_div_right hd).mpr hnum) _
    unfold MCTSNode.select_child
    rw [hcons]
    simp only [List.foldl_cons, List.foldl_nil]
    rw [if_pos hscore]

/-- Two children with identical statistics and different priors (moves
`a` and `b` in dict-insertion order). -/
def demoChildA : MCTSNode ℕ := MCTSNode.mk 1 (1/10) 0 0 false []

def demoChildB : MCTSNode ℕ := MCTSNode.mk 2 (9/10) 0 0 false []

/-- An expanded but never-visited parent of the two demo children. -/
def demoParentUnvisited : MCTSNode ℕ :=
  MCTSNode.mk 0 0 0 0 true [("a", demoChildA), ("b", demoChildB)]

/-- The same parent after one visit. -/
def demoParentVisited : MCTSNode ℕ :=
  MCTSNode.mk 0 0 1 0 true [("a", demoChildA), ("b", demoChildB)]

/-- C5 counterexample: with a parent whose visit count is 0 the
`sqrt(visits(node))` factor is 0 (`toySqrt` agrees with the real square
root at 0 and is positive on positives), so both children score alike
and `select_child` returns the FIRST child `("a", demoChildA)` even
though `demoChildB` has equal value sum and visit count, a strictly
higher prior, and `c_puct = 1 > 0` — the claim as stated demands
`("b", demoChildB)`. -/
theorem select_child_prior_tie_counterexample :
    (toySqrt 0 = 0 ∧ ∀ n : ℕ, 0 < n → (0 : ℚ) < toySqrt n) ∧
    demoChildA.value_sum = demoChildB.value_sum ∧
    demoChildA.visit_count = demoChildB.visit_count ∧
    demoChildA.prior < demoChildB.prior ∧
    ((0 : ℚ) < 1) ∧
    demoParentUnvisited.visit_count = 0 ∧
    MCTSNode.select_child toySqrt 1 demoParentUnvisited = some ("a", demoChildA) := by
  refine ⟨⟨rfl, ?_⟩, rfl, rfl, by norm_num [demoChildA, demoChildB], by norm_num,
    rfl, ?_⟩
  · intro n hn
    simpa [toySqrt] using hn
  · unfold MCTSNode.select_child
    simp only [demoParentUnvisited, MCTSNode.children_mk, List.foldl_cons,
      List.foldl_nil]
    rw [if_neg]
    rw [not_lt]
    unfold MCTSNode.ucb_score MCTSNode.value
    norm_num [demoChildA, demoChildB, demoParentUnvisited, toySqrt]

theorem select_child_argmax_and_prior_witness :
    2 ≤ demoParentVisited.children.length ∧
    ((∃ mv c, MCTSNode.select_child toySqrt 1 demoParentVisited = some (mv, c) ∧
        (mv, c) ∈ demoParentVisited.children ∧
        ∀ q ∈ demoParentVisited.children,
          MCTSNode.ucb_score toySqrt 1 demoParentVisited q.2 ≤
            MCTSNode.ucb_score toySqrt 1 demoParentVisited c) ∧
     (∀ m1 c1 m2 c2, demoParentVisited.children = [(m1, c1), (m2, c2)] →
        c1.value_sum = c2.value_sum → c1.visit_count = c2.visit_count →
        (0 : ℚ) < 1 → 0 < toySqrt demoParentVisited.visit_count →
        c1.prior < c2.prior →
        MCTSNode.select_child toySqrt 1 demoParentVisited = some (m2, c2))) :=
  ⟨by norm_num [demoParentVisited],
   select_child_argmax_and_prior toySqrt 1 demoParentVisited
     (by norm_num [demoParentVisited])⟩

theorem select_move_zero_temp (powFn : ℚ → ℚ → ℚ)
    (choose chooseB : List String → List ℚ → String)
    (vc : List (String × ℕ)) :
    select_move powFn choose 0 vc = select_move powFn chooseB 0 vc := by
  unfold select_move
  norm_num

/-- C9: for a non-terminal root position, two runs of `MCTS.search` at
temperature 0 whose evaluators return identical outputs on every queried
position return the same `(best_move, move_probabilities, root_value)`
triple, whatever the state of the random sampler in either run: at
temperature 0 the tree build and `max`-based move selection consume no
randomness. -/
theorem search_zero_temp_deterministic {σ} (g : GameOps σ)
    (predict predictB : σ → List ℚ × ℚ) (sqrtFn : ℕ → ℚ)
    (powFn : ℚ → ℚ → ℚ) (choose chooseB : List String → List ℚ → String)
    (c_puct : ℚ) (num_simulations : ℕ) (s : σ)
    (hnt : g.isGameOver s = false)
    (hp : ∀ x, predict x = predictB x) :
    MCTS_search g predict sqrtFn powFn choose c_puct num_simulations s 0 =
      MCTS_search g predictB sqrtFn powFn chooseB c_puct num_simulations s 0 := by
  have hpe : predict = predictB := funext hp
  subst hpe
  simp only [MCTS_search]
  have hsm : ∀ vc, select_move powFn choose 0 vc = select_move powFn chooseB 0 vc :=
    select_move_zero_temp powFn choose chooseB
  simp only [hsm]

theorem search_zero_temp_deterministic_witness :
    toyOps.isGameOver 0 = false ∧ (∀ x, toyPredict x = toyPredictB x) ∧
    MCTS_search toyOps toyPredict toySqrt toyPow toyChoose 1 3 0 0 =
      MCTS_search toyOps toyPredictB toySqrt toyPow toyChooseB 1 3 0 0 :=
  ⟨rfl, fun _ => rfl,
   search_zero_temp_deterministic toyOps toyPredict toyPredictB toySqrt toyPow
     toyChoose toyChooseB 1 3 0 rfl (fun _ => rfl)⟩

/-- C2 (amended): calling `MCTS.search` on an already-terminal position
does fail, but not with a `NoLegalMoves` rejection before the first
simulation (no such guard exists): all `num_simulations` simulations run
— each backpropagating the terminal value into the root, whose visit
count reaches `num_simulations` — and the failure is only raised at move
selection over the root's empty children dict (`max()` of an empty
sequence at temperature 0, sampling from an empty distribution
otherwise). -/
theorem search_terminal_position_fails {σ} (g : GameOps σ)
    (predict : σ → List ℚ × ℚ) (sqrtFn : ℕ → ℚ) (powFn : ℚ → ℚ → ℚ)
    (choose : List String → List ℚ → String) (c_puct : ℚ) (n : ℕ) (s : σ)
    (temperature : ℚ) (hterm : g.isGameOver s = true) :
    runSims g predict sqrtFn c_puct n (MCTSNode.mk s 0 0 0 false []) =
      .ok (MCTSNode.mk s 0 n ((n : ℚ) * terminal_value g s) false []) ∧
    MCTS_search g predict sqrtFn powFn choose c_puct n s temperature =
      .error (if temperature = 0 then SErr.maxEmpty else SErr.sampleZero) := by
  have hr := runSims_terminal g predict sqrtFn c_puct n
    (MCTSNode.mk s 0 0 0 false []) (by simpa using hterm)
  have hr2 : runSims g predict sqrtFn c_puct n (MCTSNode.mk s 0 0 0 false []) =
      .ok (MCTSNode.mk s 0 n ((n : ℚ) * terminal_value g s) false []) := by
    simpa using hr
  refine ⟨hr2, ?_⟩
  simp only [MCTS_search]
  rw [hr2, ok_bind_eq]
  simp only [MCTSNode.children_mk, List.map_nil]
  by_cases ht : temperature = 0
  · rw [if_pos ht, ht]
    rw [show select_move powFn choose 0 [] = .error .maxEmpty from rfl]
    rw [error_bind_eq]
  · rw [if_neg ht]
    have hsel : select_move powFn choose temperature [] = .error .sampleZero := by
      unfold select_move
      rw [if_neg ht]
      simp
    rw [hsel, error_bind_eq]

theorem search_terminal_position_fails_witness :
    toyOps.isGameOver 1 = true ∧
    (runSims toyOps toyPredict toySqrt 1 3 (MCTSNode.mk 1 0 0 0 false []) =
       .ok (MCTSNode.mk 1 0 3 ((3 : ℚ) * terminal_value toyOps 1) false []) ∧
     MCTS_search toyOps toyPredict toySqrt toyPow toyChoose 1 3 1 0 =
       .error (if (0 : ℚ) = 0 then SErr.maxEmpty else SErr.sampleZero)) :=
  ⟨rfl, search_terminal_position_fails toyOps toyPredict toySqrt toyPow
    toyChoose 1 3 1 0 rfl⟩

/-- C2 counterexample: state `1` of the toy game is terminal, yet with
`num_simulations = 2` the search is not rejected before simulating — the
root's visit count after the simulation loop is 2, i.e. both simulations
ran and backpropagated the terminal value — and the eventual failure is
the empty-`visit_counts` `max()` at move selection, not a `NoLegalMoves`
rejection (no such signal exists anywhere in `mcts.py`). -/
theorem search_terminal_runs_all_simulations :
    toyOps.isGameOver 1 = true ∧
    (runSims toyOps toyPredict toySqrt 1 2
        (MCTSNode.mk 1 0 0 0 false [])).map MCTSNode.visit_count = .ok 2 ∧
    MCTS_search toyOps toyPredict toySqrt toyPow toyChoose 1 2 1 0 =
      .error SErr.maxEmpty := by
  have hr := runSims_terminal toyOps toyPredict toySqrt 1 2
    (MCTSNode.mk 1 0 0 0 false []) rfl
  have hr2 : runSims toyOps toyPredict toySqrt 1 2
      (MCTSNode.mk 1 0 0 0 false []) = .ok (MCTSNode.mk 1 0 2 2 false []) := by
    rw [hr]
    norm_num [terminal_value, toyOps]
  refine ⟨rfl, ?_, ?_⟩
  · rw [hr2]
    rfl
  · simp only [MCTS_search]
    rw [hr2, ok_bind_eq]
    simp only [MCTSNode.children_mk, List.map_nil]
    rw [show select_move toyPow toyChoose 0 [] = .error .maxEmpty from rfl]
    rw [error_bind_eq]

theorem select_move_all_zero_counts (powFn : ℚ → ℚ → ℚ)
    (choose : List String → List ℚ → String) (temperature : ℚ)
    (vc : List (String × ℕ)) (ht : temperature ≠ 0)
    (hz : ∀ p ∈ vc, p.2 = 0) (hpow : ∀ x, powFn 0 x = 0) :
    select_move powFn choose temperature vc = .error .sampleZero := by
  simp only [select_move]
  rw [if_neg ht]
  have hsum : (if temperature ≠ 1 then
        (vc.map (fun mc => ((mc.2 : ℕ) : ℚ))).map (fun c => powFn c (1 / temperature))
      else vc.map (fun mc => ((mc.2 : ℕ) : ℚ))).sum = 0 := by
    split_ifs
    · apply List.sum_eq_zero
      intro x hx
      rcases List.mem_map.mp hx with ⟨c, hc, hcx⟩
      rcases List.mem_map.mp hc with ⟨p, hp, hpc⟩
      rw [hz p hp] at hpc
      rw [← hcx, ← hpc]
      simpa using hpow (1 / temperature)
    · apply List.sum_eq_zero
      intro x hx
      rcases List.mem_map.mp hx with ⟨p, hp, hpx⟩
      rw [hz p hp] at hpx
      simpa using hpx.symm
  rw [if_pos hsum]

/-- C10: for a non-terminal root position with at least one legal move,
`MCTS.search` with `num_simulations = 1` cannot return a result: the
single simulation only expands the root (every child keeps visit count
0) and backpropagates into the root itself, so the final normalisation
of the visit distribution divides by the zero visit total (and, at
temperature > 0, the sampling probabilities are already a division by a
zero total), raising an error. -/
theorem search_single_simulation_divides_by_zero {σ} (g : GameOps σ)
    (predict : σ → List ℚ × ℚ) (sqrtFn : ℕ → ℚ) (powFn : ℚ → ℚ → ℚ)
    (choose : List String → List ℚ → String) (c_puct : ℚ) (s : σ)
    (temperature : ℚ) (h1 : g.isGameOver s = false)
    (h2 : g.legalMoves s ≠ []) (hpow : ∀ x, powFn 0 x = 0) :
    (∃ t, runSims g predict sqrtFn c_puct 1 (MCTSNode.mk s 0 0 0 false []) =
            .ok t ∧
          t.children ≠ [] ∧ ∀ mc ∈ t.children, mc.2.visit_count = 0) ∧
    MCTS_search g predict sqrtFn powFn choose c_puct 1 s temperature =
      .error (if temperature = 0 then SErr.zeroDivision else SErr.sampleZero) := by
  have hsim := simulate_expand g predict sqrtFn c_puct
    (MCTSNode.mk s 0 0 0 false []) rfl (by simpa using h1)
  set P := (evaluate_position g predict
    (MCTSNode.mk s 0 0 0 false [] : MCTSNode σ).state).1 with hP
  set v := (evaluate_position g predict
    (MCTSNode.mk s 0 0 0 false [] : MCTSNode σ).state).2 with hv
  set t₁ := (MCTSNode.expand g P (MCTSNode.mk s 0 0 0 false [])).update v with ht₁
  have hrun : runSims g predict sqrtFn c_puct 1 (MCTSNode.mk s 0 0 0 false []) =
      .ok t₁ := by
    rw [runSims, hsim, ok_bind_eq, runSims]
  have hch : t₁.children =
      (MCTSNode.expand g P (MCTSNode.mk s 0 0 0 false [])).children := by
    rw [ht₁]
    simp [MCTSNode.update]
  have hz : ∀ mc ∈ t₁.children, mc.2.visit_count = 0 := by
    rw [hch]
    exact expand_children_visit_zero g P (MCTSNode.mk s 0 0 0 false []) rfl
  have hne : t₁.children ≠ [] := by
    rw [hch]
    exact expand_children_ne_nil g P (MCTSNode.mk s 0 0 0 false []) rfl
      (by simpa using h2)
  refine ⟨⟨t₁, hrun, hne, hz⟩, ?_⟩
  simp only [MCTS_search]
  rw [hrun, ok_bind_eq]
  have hvc_all0 : ∀ p ∈ t₁.children.map (fun mc => (mc.1, mc.2.visit_count)),
      p.2 = 0 := by
    intro p hp
    rcases List.mem_map.mp hp with ⟨mc, hmc, hmcp⟩
    rw [← hmcp]
    exact hz mc hmc
  have htotal : ((t₁.children.map (fun mc => (mc.1, mc.2.visit_count))).map
      Prod.snd).sum = 0 := by
    apply List.sum_eq_zero
    intro x hx
    rcases List.mem_map.mp hx with ⟨p, hp, hpx⟩
    rw [← hpx]
    exact hvc_all0 p hp
  by_cases htemp : temperature = 0
  · rw [if_pos htemp, htemp]
    have hvc_ne : t₁.children.map (fun mc => (mc.1, mc.2.visit_count)) ≠ [] := by
      simpa using hne
    rcases List.exists_cons_of_ne_nil hvc_ne with ⟨hd, tl, hcons⟩
    rw [hcons]
    rw [show select_move powFn choose 0 (hd :: tl) =
        .ok (firstArgmax hd tl) from rfl]
    rw [ok_bind_eq]
    rw [← hcons, if_pos htotal]
  · rw [if_neg htemp]
    rw [select_move_all_zero_counts powFn choose temperature _ htemp hvc_all0 hpow]
    rw [error_bind_eq]

theorem search_single_simulation_divides_by_zero_witness :
    toyOps.isGameOver 0 = false ∧ toyOps.legalMoves 0 ≠ [] ∧
    (∀ x, toyPow 0 x = 0) ∧
    MCTS_search toyOps toyPredict toySqrt toyPow toyChoose 1 1 0 0 =
      .error (if (0 : ℚ) = 0 then SErr.zeroDivision else SErr.sampleZero) :=
  ⟨rfl, by simp [toyOps], fun _ => rfl,
   (search_single_simulation_divides_by_zero toyOps toyPredict toySqrt toyPow
     toyChoose 1 0 0 rfl (by simp [toyOps]) (fun _ => rfl)).2⟩

theorem play_loop_unfold {σ} (g : GameOps σ)
    (searchFn : σ → ℚ → String × List (String × ℚ) × ℚ) (th fuel : ℕ)
    (s : σ) (mc : ℕ) :
    play_loop g searchFn th fuel s mc =
      if g.isGameOver s then ([], s)
      else
        let temperature : ℚ := if mc < th then 1 else 0
        let mpv := searchFn s temperature
        let entry : HistEntry σ := ⟨s, mpv.2.1, g.turnWhite s, mc, temperature⟩
        let s' := g.makeMove s mpv.1
        if mc + 1 > 500 then ([entry], s')
        else
          match fuel with
          | 0 => ([entry], s')
          | fuel' + 1 =>
              let rest := play_loop g searchFn th fuel' s' (mc + 1)
              (entry :: rest.1, rest.2) := by
  cases fuel <;> rfl

theorem play_loop_entry_fields {σ} (g : GameOps σ)
    (searchFn : σ → ℚ → String × List (String × ℚ) × ℚ) (th : ℕ) :
    ∀ (fuel : ℕ) (s : σ) (mc k : ℕ) (e : HistEntry σ),
    (play_loop g searchFn th fuel s mc).1.get? k = some e →
    e.move_number = mc + k ∧
    e.temperature = (if mc + k < th then (1 : ℚ) else 0) ∧
    e.player = g.turnWhite e.position := by
  intro fuel
  induction fuel with
  | zero =>
      intro s mc k e h
      rw [play_loop_unfold] at h
      simp only [] at h
      by_cases hgo : g.isGameOver s
      · rw [if_pos hgo] at h
        simp at h
      · rw [if_neg hgo] at h
        by_cases hcap : mc + 1 > 500
        · rw [if_pos hcap] at h
          match k with
          | 0 =>
              simp only [List.get?] at h
              injection h with h2
              subst h2
              refine ⟨by simp, by simp, rfl⟩
          | k + 1 =>
              simp at h
        · rw [if_neg hcap] at h
          match k with
          | 0 =>
              simp only [List.get?] at h
              injection h with h2
              subst h2
              refine ⟨by simp, by simp, rfl⟩
          | k + 1 =>
              simp at h
  | succ fuel ih =>
      intro s mc k e h
      rw [play_loop_unfold] at h
      simp only [] at h
      by_cases hgo : g.isGameOver s
      · rw [if_pos hgo] at h
        simp at h
      · rw [if_neg hgo] at h
        by_cases hcap : mc + 1 > 500
        · rw [if_pos hcap] at h
          match k with
          | 0 =>
              simp only [List.get?] at h
              injection h with h2
              subst h2
              refine ⟨by simp, by simp, rfl⟩
          | k + 1 =>
              simp at h
        · rw [if_neg hcap] at h
          match k with
          | 0 =>
              simp only [List.get?] at h
              injection h with h2
              subst h2
              refine ⟨by simp, by simp, rfl⟩
          | k + 1 =>
              simp only [List.get?] at h
              rcases ih _ (mc + 1) k e h with ⟨ih1, ih2, ih3⟩
              refine ⟨by omega, ?_, ih3⟩
              rw [ih2]
              have harith : mc + 1 + k = mc + (k + 1) := by omega
              rw [harith]

/-- C8: in a self-play game, ply `k` is searched with temperature 1 when
`k` is below the exploration-ply threshold and with temperature 0 from
that ply on (the temperature recorded in each history entry is the one
passed to the search at that ply); and after the game ends — including
the forced stop at the move cap, whose `"*"` result maps to outcome 0 —
every recorded training example's value target equals the final outcome from
White's perspective when White was the side to move at that example, and
its negation when Black was. -/
theorem self_play_schedule_and_value_targets {σ} (g : GameOps σ)
    (searchFn : σ → ℚ → String × List (String × ℚ) × ℚ)
    (temperature_threshold : ℕ) (s0 : σ) :
    (∀ (k : ℕ) (e : HistEntry σ),
       (play_loop g searchFn temperature_threshold 501 s0 0).1.get? k = some e →
       e.move_number = k ∧
       e.temperature = (if k < temperature_threshold then (1 : ℚ) else 0) ∧
       e.player = g.turnWhite e.position) ∧
    (∀ (k : ℕ) (e : HistEntry σ) (te : TrainEntry σ),
       (play_loop g searchFn temperature_threshold 501 s0 0).1.get? k = some e →
       (play_game g searchFn temperature_threshold s0).1.get? k = some te →
       te.value =
         (if e.player then
            outcome_of_result
              (g.result (play_loop g searchFn temperature_threshold 501 s0 0).2)
          else
            -outcome_of_result
              (g.result (play_loop g searchFn temperature_threshold 501 s0 0).2))) := by
  constructor
  · intro k e h
    have := play_loop_entry_fields g searchFn temperature_threshold 501 s0 0 k e h
    simpa using this
  · intro k e te h1 h2
    simp only [play_game] at h2
    rw [List.get?_map, h1, Option.map_some'] at h2
    injection h2 with h3
    rw [← h3]

theorem self_play_schedule_and_value_targets_witness :
    (play_loop toyOps toySearch 15 501 0 0).1.get? 0 =
      some (⟨0, [("a", 1)], true, 0, 1⟩ : HistEntry ℕ) ∧
    (play_game toyOps toySearch 15 0).1.get? 0 =
      some (⟨0, [("a", 1)], 1, 0⟩ : TrainEntry ℕ) ∧
    (⟨0, [("a", 1)], 1, 0⟩ : TrainEntry ℕ).value =
      (if (⟨0, [("a", 1)], true, 0, 1⟩ : HistEntry ℕ).player then
         outcome_of_result (toyOps.result (play_loop toyOps toySearch 15 501 0 0).2)
       else
         -outcome_of_result (toyOps.result (play_loop toyOps toySearch 15 501 0 0).2)) :=
  ⟨rfl, rfl,
   (self_play_schedule_and_value_targets toyOps toySearch 15 0).2 0
     ⟨0, [("a", 1)], true, 0, 1⟩ ⟨0, [("a", 1)], 1, 0⟩ rfl rfl⟩
